import Mathlib

/-!
Shallow embedding of `src/contracts/PrivacyWalletRecoveryFHE.sol`.

Ciphertexts are embedded by their plaintext content: a ciphertext handle of
type `euint32` is modelled by the natural number it encrypts (kept below
2 ^ 32 by every FHE operation, mirroring 32-bit homomorphic arithmetic) and
an `ebool` by the boolean it encrypts.  Solidity mappings become total
functions returning the Solidity default value; a reverting call is an
`Except.error` carrying the revert reason, and a revert leaves the pre-call
state untouched by construction.  `block.timestamp`, `msg.sender`, the id
returned by `FHE.requestDecryption` and the outcome of
`FHE.checkSignatures` are environment inputs and appear as explicit
parameters.
-/

namespace PrivacyWalletRecoveryFHE

/-- The modulus of 32-bit homomorphic arithmetic. -/
def U32MOD : Nat := 2 ^ 32

/-- Embedding of `ebool`: the boolean content of the encrypted vote.  The
source branches on the field access `encryptedApproval.value`. -/
structure EBool where
  value : Bool
deriving DecidableEq

/-- Source struct `EncryptedGuardian { euint32 encryptedAddress; }`. -/
structure EncryptedGuardian where
  encryptedAddress : Nat
deriving DecidableEq

/-- Source struct `RecoveryRequest`: id, encrypted approval counter
(`euint32`, embedded by its content), creation timestamp, executed flag. -/
structure RecoveryRequest where
  requestId : Nat
  encryptedApprovalCount : Nat
  timestamp : Nat
  executed : Bool
deriving DecidableEq

/-- Revert reasons appearing in the contract (`"Invalid request"`,
`"Already executed"`), the failure of `FHE.checkSignatures`, and the
`Unauthorized` reason of the specification (never produced by the code,
whose `onlyUser` modifier performs no check). -/
inductive SolError where
  | invalidRequest
  | alreadyExecuted
  | invalidSignatures
  | unauthorized
deriving DecidableEq

/-- The two events of the contract. -/
inductive Event where
  | RecoveryRequested (requestId : Nat) (timestamp : Nat)
  | RecoveryExecuted (requestId : Nat)
deriving DecidableEq

/-- Solidity default value of the `RecoveryRequest` struct. -/
def emptyRequest : RecoveryRequest :=
  { requestId := 0, encryptedApprovalCount := 0, timestamp := 0, executed := false }

/-- Contract storage.  Addresses are naturals; `0` plays `address(0)`. -/
structure ContractState where
  requestCounter : Nat
  userGuardians : Nat → List EncryptedGuardian
  recoveryRequests : Nat → RecoveryRequest
  requestToUser : Nat → Nat

/-- Freshly deployed contract: counter `0`, all mappings at their
Solidity defaults. -/
def initState : ContractState :=
  { requestCounter := 0
    userGuardians := fun _ => []
    recoveryRequests := fun _ => emptyRequest
    requestToUser := fun _ => 0 }

/-- `FHE.asEuint32 n`: trivial encryption of the 32-bit value of `n`. -/
def fheAsEuint32 (n : Nat) : Nat := n % U32MOD

/-- `FHE.add` on `euint32`: homomorphic 32-bit addition. -/
def fheAdd (a b : Nat) : Nat := (a + b) % U32MOD

/-- The `onlyUser` modifier of the source.  Its body is just `_;`, so it
reverts on no input at all. -/
def onlyUserReverts (_user _sender : Nat) : Bool := false

/-- `setEncryptedGuardians`: `delete userGuardians[msg.sender]`, then push
each entry of the argument array in order. -/
def setEncryptedGuardians (s : ContractState) (sender : Nat)
    (guardians : List EncryptedGuardian) : ContractState :=
  { s with userGuardians := fun u =>
      if u = sender then guardians.foldl (fun acc g => acc ++ [g]) [] else s.userGuardians u }

/-- `requestWalletRecovery`: increments `requestCounter`, stores a fresh
request under the new id with counter `FHE.asEuint32(0)`, records the
sender as owner, and emits `RecoveryRequested(newId, block.timestamp)`. -/
def requestWalletRecovery (s : ContractState) (sender blockTimestamp : Nat) :
    ContractState × Event :=
  let newId := s.requestCounter + 1
  ({ s with
      requestCounter := newId
      recoveryRequests := fun r =>
        if r = newId then
          { requestId := newId, encryptedApprovalCount := fheAsEuint32 0,
            timestamp := blockTimestamp, executed := false }
        else s.recoveryRequests r
      requestToUser := fun r => if r = newId then sender else s.requestToUser r },
   Event.RecoveryRequested newId blockTimestamp)

/-- `submitEncryptedApproval`: requires `0 < requestId ≤ requestCounter`
(`"Invalid request"`) and `!executed` (`"Already executed"`); then, when the
vote is affirmative, replaces the counter by
`FHE.add(counter, FHE.asEuint32(1))`, and otherwise changes nothing. -/
def submitEncryptedApproval (s : ContractState) (requestId : Nat)
    (encryptedApproval : EBool) : Except SolError ContractState :=
  if 0 < requestId ∧ requestId ≤ s.requestCounter then
    let req := s.recoveryRequests requestId
    if req.executed then .error .alreadyExecuted
    else if encryptedApproval.value then
      let newReq : RecoveryRequest :=
        { req with encryptedApprovalCount := fheAdd req.encryptedApprovalCount (fheAsEuint32 1) }
      .ok { s with recoveryRequests := fun r =>
              if r = requestId then newReq else s.recoveryRequests r }
    else .ok s
  else .error .invalidRequest

/-- Payload of an issued `FHE.requestDecryption` call: the id the oracle
returned and the ciphertext handed over for decryption. -/
structure DecryptionIssue where
  decId : Nat
  ciphertext : Nat
deriving DecidableEq

/-- `requestApprovalDecryption`: the `onlyUser` modifier runs first (and
checks nothing); requires `!executed`; hands the request counter
ciphertext to `FHE.requestDecryption`, whose returned id `decId` is an
environment input; records `requestToUser[decId] = requestToUser[requestId]`.
Note the absence of any existence check on `requestId`. -/
def requestApprovalDecryption (s : ContractState) (sender requestId decId : Nat) :
    Except SolError (ContractState × DecryptionIssue) :=
  if onlyUserReverts (s.requestToUser requestId) sender then .error .unauthorized
  else
    let req := s.recoveryRequests requestId
    if req.executed then .error .alreadyExecuted
    else
      .ok ({ s with requestToUser := fun r =>
               if r = decId then s.requestToUser requestId else s.requestToUser r },
           { decId := decId, ciphertext := req.encryptedApprovalCount })

/-- `decryptApproval(requestId, cleartexts, proof)`: requires
`requestToUser[requestId] != address(0)` (`"Invalid request"`); then
`FHE.checkSignatures` (its verdict `sigOk` is an environment input); then
decodes the cleartext count, requires `!executed` on
`recoveryRequests[requestId]` — the correlation id itself is used as the
request index — and sets `executed := true`, emitting
`RecoveryExecuted(req.requestId)`, exactly when
`approvalCount > userGuardians[user].length / 2`. -/
def decryptApproval (s : ContractState) (requestId cleartexts : Nat) (sigOk : Bool) :
    Except SolError (ContractState × List Event) :=
  let user := s.requestToUser requestId
  if user = 0 then .error .invalidRequest
  else if sigOk = false then .error .invalidSignatures
  else
    let approvalCount := cleartexts
    let req := s.recoveryRequests requestId
    if req.executed then .error .alreadyExecuted
    else if approvalCount > (s.userGuardians user).length / 2 then
      .ok ({ s with recoveryRequests := fun r =>
               if r = requestId then { req with executed := true }
               else s.recoveryRequests r },
           [Event.RecoveryExecuted req.requestId])
    else .ok (s, [])

/-- `getGuardianCount`: a view returning `userGuardians[user].length`. -/
def getGuardianCount (s : ContractState) (user : Nat) : Nat :=
  (s.userGuardians user).length

/-- A sequence of `submitEncryptedApproval` calls on the same request,
applied in order; any call reverting aborts the sequence. -/
def submitAll (s : ContractState) (requestId : Nat) (votes : List EBool) :
    Except SolError ContractState :=
  votes.foldlM (fun st v => submitEncryptedApproval st requestId v) s

/-- Number of affirmative votes in a sequence. -/
def countApprove (votes : List EBool) : Nat :=
  votes.countP (fun v => v.value)

/-- Iterated `requestWalletRecovery` (the event is discarded). -/
def createMany (s : ContractState) (sender t : Nat) : Nat → ContractState
  | 0 => s
  | n + 1 => (requestWalletRecovery (createMany s sender t n) sender t).1

/-- State after one holder (address 7) creates the first recovery request
at timestamp 100 on a fresh deployment. -/
def demoCreated : ContractState := (requestWalletRecovery initState 7 100).1

/-- `demoCreated` with five encrypted guardians registered for holder 7. -/
def demoFive : ContractState :=
  setEncryptedGuardians demoCreated 7 [⟨1⟩, ⟨2⟩, ⟨3⟩, ⟨4⟩, ⟨5⟩]

/-- `demoCreated` with a single encrypted guardian for holder 7. -/
def demoOneGuardian : ContractState := setEncryptedGuardians demoCreated 7 [⟨5⟩]

/-- State after holder 7 issues decryption for request 1 from
`demoOneGuardian` and the oracle returns correlation id 42. -/
def demoAfterIssue : ContractState :=
  match requestApprovalDecryption demoOneGuardian 7 1 42 with
  | .ok p => p.1
  | .error _ => initState

/-- A state holding one already-executed request with id 1, owned by 7. -/
def demoExecuted : ContractState :=
  { requestCounter := 1
    userGuardians := fun _ => []
    recoveryRequests := fun r =>
      if r = 1 then
        { requestId := 1, encryptedApprovalCount := 0, timestamp := 100, executed := true }
      else emptyRequest
    requestToUser := fun r => if r = 1 then 7 else 0 }

/-! ## Helper lemmas -/

theorem foldl_push (gs : List EncryptedGuardian) :
    ∀ acc : List EncryptedGuardian, gs.foldl (fun a g => a ++ [g]) acc = acc ++ gs := by
  induction gs with
  | nil => intro acc; simp
  | cons g tl ih => intro acc; simp [List.foldl, ih]

/-- Frame of a successful `submitEncryptedApproval`: only the counter of
the voted-on request may change; `executed` flags, already-executed
requests, the request counter, guardians and correlations are untouched. -/
theorem submitEncryptedApproval_frame (s : ContractState) (rid : Nat) (v : EBool)
    (s' : ContractState) (h : submitEncryptedApproval s rid v = .ok s') :
    s'.requestCounter = s.requestCounter ∧
    s'.userGuardians = s.userGuardians ∧
    s'.requestToUser = s.requestToUser ∧
    (∀ r, r ≠ rid → s'.recoveryRequests r = s.recoveryRequests r) ∧
    (∀ r, (s'.recoveryRequests r).executed = (s.recoveryRequests r).executed) ∧
    (∀ r, (s.recoveryRequests r).executed = true →
       s'.recoveryRequests r = s.recoveryRequests r) := by
  by_cases hval : 0 < rid ∧ rid ≤ s.requestCounter
  · by_cases hex : (s.recoveryRequests rid).executed = true
    · simp [submitEncryptedApproval, hval, hex] at h
    · by_cases hv : v.value = true
      · simp [submitEncryptedApproval, hval, hex, hv] at h
        subst h
        refine ⟨rfl, rfl, rfl, ?_, ?_, ?_⟩
        · intro r hr; simp [hr]
        · intro r
          by_cases hr : r = rid
          · subst hr; simp_all
          · simp [hr]
        · intro r hr
          by_cases hrr : r = rid
          · subst hrr; simp_all
          · simp [hrr]
      · simp [submitEncryptedApproval, hval, hex, hv] at h
        subst h
        exact ⟨rfl, rfl, rfl, fun _ _ => rfl, fun _ => rfl, fun _ _ => rfl⟩
  · simp [submitEncryptedApproval, hval] at h

/-- Frame of a successful `requestApprovalDecryption`: only the
correlation entry at the returned decryption id changes. -/
theorem requestApprovalDecryption_frame (s : ContractState) (sender rq did : Nat)
    (p : ContractState × DecryptionIssue)
    (h : requestApprovalDecryption s sender rq did = .ok p) :
    p.1.requestCounter = s.requestCounter ∧
    p.1.userGuardians = s.userGuardians ∧
    p.1.recoveryRequests = s.recoveryRequests ∧
    (∀ r, r ≠ did → p.1.requestToUser r = s.requestToUser r) := by
  by_cases hex : (s.recoveryRequests rq).executed = true
  · simp [requestApprovalDecryption, onlyUserReverts, hex] at h
  · simp [requestApprovalDecryption, onlyUserReverts, hex] at h
    subst h
    exact ⟨rfl, rfl, rfl, fun r hr => by simp [hr]⟩

/-- Frame of a successful `decryptApproval`: at most the `executed` flag
of the request indexed by the correlation id is touched, and only a
not-yet-executed request can be resolved. -/
theorem decryptApproval_frame_aux (s : ContractState) (cid c : Nat) (sigOk : Bool)
    (q : ContractState × List Event) (h : decryptApproval s cid c sigOk = .ok q) :
    q.1.requestCounter = s.requestCounter ∧
    q.1.userGuardians = s.userGuardians ∧
    q.1.requestToUser = s.requestToUser ∧
    (∀ r, r ≠ cid → q.1.recoveryRequests r = s.recoveryRequests r) ∧
    (∀ r, (q.1.recoveryRequests r).encryptedApprovalCount =
       (s.recoveryRequests r).encryptedApprovalCount) ∧
    (∀ r, (q.1.recoveryRequests r).requestId = (s.recoveryRequests r).requestId) ∧
    (∀ r, (q.1.recoveryRequests r).timestamp = (s.recoveryRequests r).timestamp) ∧
    (s.recoveryRequests cid).executed = false ∧
    (q.1.recoveryRequests cid = s.recoveryRequests cid ∨
     q.1.recoveryRequests cid = { s.recoveryRequests cid with executed := true }) := by
  by_cases hu : s.requestToUser cid = 0
  · simp [decryptApproval, hu] at h
  · by_cases hs : sigOk = false
    · simp [decryptApproval, hu, hs] at h
    · by_cases hex : (s.recoveryRequests cid).executed = true
      · simp [decryptApproval, hu, hs, hex] at h
      · by_cases hth : c > (s.userGuardians (s.requestToUser cid)).length / 2
        · simp [decryptApproval, hu, hs, hex, hth] at h
          subst h
          refine ⟨rfl, rfl, rfl, ?_, ?_, ?_, ?_, by simp_all, ?_⟩
          · intro r hr; simp [hr]
          · intro r
            by_cases hr : r = cid
            · subst hr; simp
            · simp [hr]
          · intro r
            by_cases hr : r = cid
            · subst hr; simp
            · simp [hr]
          · intro r
            by_cases hr : r = cid
            · subst hr; simp
            · simp [hr]
          · right; simp
        · simp [decryptApproval, hu, hs, hex, hth] at h
          subst h
          exact ⟨rfl, rfl, rfl, fun _ _ => rfl, fun _ => rfl, fun _ => rfl,
            fun _ => rfl, by simp_all, Or.inl rfl⟩

/-! ## Claim theorems -/

/-- Claim C2: with a valid correlation, a verified proof and a
not-yet-executed request, the callback sets `executed := true` and emits
the execution event exactly when the cleartext count reaches
`floor(N / 2) + 1`, `N` being the guardian count of the resolved user at
evaluation time; below that threshold the state is unchanged and no event
is emitted, so the request stays open. -/
theorem decryptApproval_majority (s : ContractState) (cid c : Nat)
    (huser : s.requestToUser cid ≠ 0)
    (hexec : (s.recoveryRequests cid).executed = false) :
    (c ≥ (s.userGuardians (s.requestToUser cid)).length / 2 + 1 →
      decryptApproval s cid c true =
        .ok ({ s with recoveryRequests := fun r =>
                 if r = cid then { s.recoveryRequests cid with executed := true }
                 else s.recoveryRequests r },
             [Event.RecoveryExecuted (s.recoveryRequests cid).requestId])) ∧
    (c < (s.userGuardians (s.requestToUser cid)).length / 2 + 1 →
      decryptApproval s cid c true = .ok (s, [])) := by
  constructor
  · intro hc
    have hth : c > (s.userGuardians (s.requestToUser cid)).length / 2 := hc
    simp [decryptApproval, huser, hexec, hth]
  · intro hc
    have hth : ¬ c > (s.userGuardians (s.requestToUser cid)).length / 2 := by omega
    simp [decryptApproval, huser, hexec, hth]

/-- Witness for C2 at the majority boundary: five guardians, decrypted
count 3, the request executes and the event fires. -/
theorem decryptApproval_majority_witness :
    demoFive.requestToUser 1 ≠ 0 ∧
    (demoFive.recoveryRequests 1).executed = false ∧
    ∃ q, decryptApproval demoFive 1 3 true = .ok q ∧
      (q.1.recoveryRequests 1).executed = true ∧
      q.2 = [Event.RecoveryExecuted 1] := by
  refine ⟨by decide, by decide, ?_⟩
  have h := (decryptApproval_majority demoFive 1 3 (by decide) (by decide)).1 (by decide)
  exact ⟨_, h, by decide, by decide⟩

/-- Claim C4 is violated by the code: the `onlyUser` modifier has an empty
body, so a caller distinct from the owning holder of request 1 still
succeeds in `requestApprovalDecryption` and a correlation record is
produced. Here holder 7 owns request 1 and the caller is 9. -/
theorem requestApprovalDecryption_skips_auth :
    demoFive.requestToUser 1 = 7 ∧ (9 : Nat) ≠ 7 ∧
    ∃ p, requestApprovalDecryption demoFive 9 1 42 = .ok p ∧
      p.1.requestToUser 42 = 7 ∧ p.2.decId = 42 := by
  exact ⟨by decide, by decide, _, rfl, by decide, by decide⟩

/-- Claim C7 is violated by the code: `requestApprovalDecryption` has no
existence check, so on a fresh deployment (request counter 0) the call on
the never-created id 5 succeeds and an external decryption request for the
default zero ciphertext is issued, with the null owner recorded under the
returned id 11. -/
theorem requestApprovalDecryption_skips_existence_check :
    initState.requestCounter = 0 ∧
    ∃ p, requestApprovalDecryption initState 9 5 11 = .ok p ∧
      p.2 = { decId := 11, ciphertext := 0 } ∧
      p.1.requestToUser 11 = 0 := by
  exact ⟨rfl, _, rfl, by decide, by decide⟩

/-- Claim C3 is violated by the code: the correlation table only records
the owning user under the decryption id, and the callback indexes
`recoveryRequests` directly with the decryption id. After issuing
decryption for request 1 (owner 7, one guardian) under oracle id 42, the
callback for id 42 with cleartext 1 leaves the originating request 1
untouched, marks the phantom request 42 executed instead, and emits the
execution event with the default id 0. -/
theorem decryptApproval_misroutes_correlation :
    demoOneGuardian.requestToUser 1 = 7 ∧
    (∃ p, requestApprovalDecryption demoOneGuardian 7 1 42 = .ok p ∧
       p.2.decId = 42 ∧ p.1 = demoAfterIssue) ∧
    demoAfterIssue.requestToUser 42 = 7 ∧
    (demoAfterIssue.recoveryRequests 1).executed = false ∧
    ∃ q, decryptApproval demoAfterIssue 42 1 true = .ok q ∧
      (q.1.recoveryRequests 1).executed = false ∧
      (q.1.recoveryRequests 42).executed = true ∧
      q.2 = [Event.RecoveryExecuted 0] := by
  refine ⟨by decide, ⟨_, rfl, by decide, rfl⟩, by decide, by decide, _, rfl, ?_, ?_, ?_⟩
  · decide
  · decide
  · decide

/-- Claim C6 fails as stated: the guard of the callback only requires a
nonzero entry in `requestToUser`, a table that also holds every created
request id. Request 1 exists but no decryption issuance ever returned the
id 1, yet the callback on correlation id 1 passes the guard and (holder 7
having zero guardians, cleartext 1) even mutates state by executing
request 1. -/
theorem decryptApproval_unissued_correlation_accepted :
    demoCreated.requestToUser 1 = 7 ∧
    ∃ q, decryptApproval demoCreated 1 1 true = .ok q ∧
      (q.1.recoveryRequests 1).executed = true := by
  exact ⟨by decide, _, rfl, by decide⟩

/-- Claim C6 amended: a callback whose correlation id has no
`requestToUser` entry at all (zero address: the id is neither a created
request nor a recorded decryption issuance) reverts with the
invalid-request reason, and a revert mutates nothing. -/
theorem decryptApproval_unknown_correlation_reverts (s : ContractState)
    (cid c : Nat) (sigOk : Bool) (h : s.requestToUser cid = 0) :
    decryptApproval s cid c sigOk = .error SolError.invalidRequest := by
  simp [decryptApproval, h]

/-- Witness for the amended C6 on a fresh deployment at id 5. -/
theorem decryptApproval_unknown_correlation_reverts_witness :
    initState.requestToUser 5 = 0 ∧
    decryptApproval initState 5 3 true = .error SolError.invalidRequest :=
  ⟨rfl, decryptApproval_unknown_correlation_reverts initState 5 3 true rfl⟩

/-- Claim C9: `setEncryptedGuardians` atomically replaces the entire
guardian set of the caller with exactly the given sequence, leaving every
other holder and every other storage field unchanged, so that
`getGuardianCount` immediately returns its length; `getGuardianCount` is a
read of the stored list length and yields 0 for a holder who never
configured guardians. -/
theorem setGuardians_replaces_set (s : ContractState) (sender u : Nat)
    (gs : List EncryptedGuardian) (hne : u ≠ sender) :
    (setEncryptedGuardians s sender gs).userGuardians sender = gs ∧
    getGuardianCount (setEncryptedGuardians s sender gs) sender = gs.length ∧
    (setEncryptedGuardians s sender gs).userGuardians u = s.userGuardians u ∧
    (setEncryptedGuardians s sender gs).requestCounter = s.requestCounter ∧
    (setEncryptedGuardians s sender gs).recoveryRequests = s.recoveryRequests ∧
    (setEncryptedGuardians s sender gs).requestToUser = s.requestToUser ∧
    getGuardianCount s u = (s.userGuardians u).length ∧
    getGuardianCount initState u = 0 := by
  refine ⟨?_, ?_, ?_, rfl, rfl, rfl, rfl, rfl⟩
  · simp [setEncryptedGuardians, foldl_push]
  · simp [getGuardianCount, setEncryptedGuardians, foldl_push]
  · simp [setEncryptedGuardians, hne]

/-- Witness for C9: holder 7 registers two guardians on a fresh
deployment; the count for 7 becomes 2 and holder 3 stays at 0. -/
theorem setGuardians_replaces_set_witness :
    (3 : Nat) ≠ 7 ∧
    getGuardianCount (setEncryptedGuardians initState 7 [⟨1⟩, ⟨2⟩]) 7 = 2 ∧
    (setEncryptedGuardians initState 7 [⟨1⟩, ⟨2⟩]).userGuardians 3 = [] :=
  ⟨by decide,
   (setGuardians_replaces_set initState 7 3 [⟨1⟩, ⟨2⟩] (by decide)).2.1,
   (setGuardians_replaces_set initState 7 3 [⟨1⟩, ⟨2⟩] (by decide)).2.2.1⟩

/-- Counter value after iterated creation from a fresh deployment. -/
theorem createMany_counter (sender t : Nat) :
    ∀ n, (createMany initState sender t n).requestCounter = n := by
  intro n
  induction n with
  | zero => rfl
  | succ k ih => simp [createMany, requestWalletRecovery, ih]

/-- After `n` creations from a fresh deployment, the i-th creation, for
`1 ≤ i ≤ n`, is stored under identifier `i` with a zero counter, the
creation timestamp, and `executed = false`. -/
theorem createMany_request (sender t : Nat) :
    ∀ n i, 1 ≤ i → i ≤ n →
      (createMany initState sender t n).recoveryRequests i =
        { requestId := i, encryptedApprovalCount := 0, timestamp := t,
          executed := false } := by
  intro n
  induction n with
  | zero => intro i h1 h0; omega
  | succ k ih =>
    intro i h1 hle
    by_cases hi : i = k + 1
    · subst hi
      simp [createMany, requestWalletRecovery, createMany_counter, fheAsEuint32, U32MOD]
    · have hik : i ≤ k := by omega
      have hne : ¬ i = (createMany initState sender t k).requestCounter + 1 := by
        rw [createMany_counter]; omega
      simp only [createMany, requestWalletRecovery]
      simp only [hne, ite_false]
      exact ih i h1 hik

/-- Claim C8: a creation call allocates the next value of the global
monotonic counter (so the n-th request ever created from a fresh
deployment has identifier n, starting at 1, with 0 never allocated),
stores the request with a zero encrypted counter, `executed = false` and
the creation timestamp, records the sender as owner, emits the creation
event with the id and timestamp, leaves all other requests alone, and no
other operation moves the counter, so identifiers are never reused. -/
theorem requestWalletRecovery_allocates_fresh (s : ContractState)
    (sender t n i : Nat) (h1 : 1 ≤ i) (hn : i ≤ n) :
    ((requestWalletRecovery s sender t).1.requestCounter = s.requestCounter + 1 ∧
     (requestWalletRecovery s sender t).1.recoveryRequests (s.requestCounter + 1) =
       { requestId := s.requestCounter + 1, encryptedApprovalCount := 0,
         timestamp := t, executed := false } ∧
     (requestWalletRecovery s sender t).1.requestToUser (s.requestCounter + 1) = sender ∧
     (requestWalletRecovery s sender t).2 =
       Event.RecoveryRequested (s.requestCounter + 1) t ∧
     (∀ r, r ≠ s.requestCounter + 1 →
        (requestWalletRecovery s sender t).1.recoveryRequests r =
          s.recoveryRequests r)) ∧
    ((createMany initState sender t n).requestCounter = n ∧
     (createMany initState sender t n).recoveryRequests i =
       { requestId := i, encryptedApprovalCount := 0, timestamp := t,
         executed := false }) ∧
    ((∀ a gs, (setEncryptedGuardians s a gs).requestCounter = s.requestCounter) ∧
     (∀ rid v s', submitEncryptedApproval s rid v = .ok s' →
        s'.requestCounter = s.requestCounter) ∧
     (∀ a rq did p, requestApprovalDecryption s a rq did = .ok p →
        p.1.requestCounter = s.requestCounter) ∧
     (∀ cid c so q, decryptApproval s cid c so = .ok q →
        q.1.requestCounter = s.requestCounter)) := by
  refine ⟨⟨rfl, ?_, ?_, rfl, ?_⟩,
    ⟨createMany_counter sender t n, createMany_request sender t n i h1 hn⟩,
    fun _ _ => rfl,
    fun rid v s' h => (submitEncryptedApproval_frame s rid v s' h).1,
    fun a rq did p h => (requestApprovalDecryption_frame s a rq did p h).1,
    fun cid c so q h => (decryptApproval_frame_aux s cid c so q h).1⟩
  · simp [requestWalletRecovery, fheAsEuint32, U32MOD]
  · simp [requestWalletRecovery]
  · intro r hr; simp [requestWalletRecovery, hr]

/-- Witness for C8: three creations from a fresh deployment give counter 3
and the second request has identifier 2 and a fresh zero state. -/
theorem requestWalletRecovery_allocates_fresh_witness :
    (1 : Nat) ≤ 2 ∧ (2 : Nat) ≤ 3 ∧
    ((createMany initState 7 100 3).requestCounter = 3 ∧
     (createMany initState 7 100 3).recoveryRequests 2 =
       { requestId := 2, encryptedApprovalCount := 0, timestamp := 100,
         executed := false }) :=
  ⟨by decide, by decide,
   (requestWalletRecovery_allocates_fresh initState 7 100 3 2
      (by decide) (by decide)).2.1⟩

/-- Claim C5: once a request is executed the flag never reverts and the
request is frozen: a vote submission on it reverts with the
already-executed reason (in particular its counter is untouched), a
verified callback resolving to it reverts with the already-executed
reason without re-emitting the event, and every operation that succeeds
leaves the flag at `true` and the frozen counter unchanged; moreover a
successful callback only ever turns the flag of a previously unexecuted
request from `false` to `true`. -/
theorem executed_is_terminal (s : ContractState) (rid : Nat)
    (hexec : (s.recoveryRequests rid).executed = true) :
    (∀ v, 0 < rid → rid ≤ s.requestCounter →
       submitEncryptedApproval s rid v = .error SolError.alreadyExecuted) ∧
    (∀ c, s.requestToUser rid ≠ 0 →
       decryptApproval s rid c true = .error SolError.alreadyExecuted) ∧
    (∀ rid2 v s', submitEncryptedApproval s rid2 v = .ok s' →
       s'.recoveryRequests rid = s.recoveryRequests rid) ∧
    (∀ sender t, rid ≤ s.requestCounter →
       (requestWalletRecovery s sender t).1.recoveryRequests rid =
         s.recoveryRequests rid) ∧
    (∀ sender rq did p, requestApprovalDecryption s sender rq did = .ok p →
       p.1.recoveryRequests rid = s.recoveryRequests rid) ∧
    (∀ cid c so q, decryptApproval s cid c so = .ok q →
       (q.1.recoveryRequests rid).executed = true ∧
       (q.1.recoveryRequests rid).encryptedApprovalCount =
         (s.recoveryRequests rid).encryptedApprovalCount) := by
  refine ⟨?_, ?_, ?_, ?_, ?_, ?_⟩
  · intro v h0 hle
    have hval : 0 < rid ∧ rid ≤ s.requestCounter := ⟨h0, hle⟩
    simp [submitEncryptedApproval, hval, hexec]
  · intro c huser
    simp [decryptApproval, huser, hexec]
  · intro rid2 v s' h
    exact (submitEncryptedApproval_frame s rid2 v s' h).2.2.2.2.2 rid hexec
  · intro sender t hle
    have hr : rid ≠ s.requestCounter + 1 := by omega
    simp [requestWalletRecovery, hr]
  · intro sender rq did p h
    rw [(requestApprovalDecryption_frame s sender rq did p h).2.2.1]
  · intro cid c so q h
    have hfr := decryptApproval_frame_aux s cid c so q h
    by_cases hc : rid = cid
    · subst hc
      rw [hfr.2.2.2.2.2.2.2.1] at hexec
      simp at hexec
    · rw [hfr.2.2.2.1 rid hc]
      exact ⟨hexec, rfl⟩

/-- Witness for C5 on a state holding the executed request 1: both guarded
entry points revert with the already-executed reason. -/
theorem executed_is_terminal_witness :
    (demoExecuted.recoveryRequests 1).executed = true ∧
    submitEncryptedApproval demoExecuted 1 ⟨true⟩ =
      .error SolError.alreadyExecuted ∧
    decryptApproval demoExecuted 1 5 true = .error SolError.alreadyExecuted :=
  ⟨by decide,
   (executed_is_terminal demoExecuted 1 (by decide)).1 ⟨true⟩ (by decide) (by decide),
   (executed_is_terminal demoExecuted 1 (by decide)).2.1 5 (by decide)⟩

/-- Claim C10: a successful callback changes nothing except possibly the
`executed` flag of the single request its correlation id resolves to: the
request counter, every guardian registry, the whole correlation table
(never cleared), every other request, and the encrypted counter, id and
timestamp of the resolved request are all unchanged. -/
theorem decryptApproval_frame (s : ContractState) (cid c : Nat) (sigOk : Bool)
    (q : ContractState × List Event) (h : decryptApproval s cid c sigOk = .ok q) :
    q.1.requestCounter = s.requestCounter ∧
    q.1.userGuardians = s.userGuardians ∧
    q.1.requestToUser = s.requestToUser ∧
    (∀ r, r ≠ cid → q.1.recoveryRequests r = s.recoveryRequests r) ∧
    (∀ r, (q.1.recoveryRequests r).encryptedApprovalCount =
       (s.recoveryRequests r).encryptedApprovalCount) ∧
    (∀ r, (q.1.recoveryRequests r).requestId = (s.recoveryRequests r).requestId) ∧
    (∀ r, (q.1.recoveryRequests r).timestamp = (s.recoveryRequests r).timestamp) ∧
    (q.1.recoveryRequests cid = s.recoveryRequests cid ∨
     q.1.recoveryRequests cid = { s.recoveryRequests cid with executed := true }) := by
  have hfr := decryptApproval_frame_aux s cid c sigOk q h
  exact ⟨hfr.1, hfr.2.1, hfr.2.2.1, hfr.2.2.2.1, hfr.2.2.2.2.1,
    hfr.2.2.2.2.2.1, hfr.2.2.2.2.2.2.1, hfr.2.2.2.2.2.2.2.2⟩

/-- Witness for C10 on the executing callback of the C2 scenario: the
correlation table and counter of request 1 survive the execution. -/
theorem decryptApproval_frame_witness :
    ∃ q, decryptApproval demoFive 1 3 true = .ok q ∧
      q.1.requestToUser = demoFive.requestToUser ∧
      q.1.requestCounter = 1 ∧
      (q.1.recoveryRequests 1).encryptedApprovalCount = 0 := by
  refine ⟨_, rfl, ?_, ?_, ?_⟩
  · exact (decryptApproval_frame demoFive 1 3 true _ rfl).2.2.1
  · rw [(decryptApproval_frame demoFive 1 3 true _ rfl).1]; decide
  · rw [(decryptApproval_frame demoFive 1 3 true _ rfl).2.2.2.2.1 1]; decide

/-- Running a whole vote sequence on a live request succeeds and adds,
modulo 2 ^ 32, exactly the number of affirmative votes to the counter,
independently of the order in which the votes are listed. -/
theorem submitAll_count (requestId : Nat) :
    ∀ (votes : List EBool) (s : ContractState),
      0 < requestId → requestId ≤ s.requestCounter →
      (s.recoveryRequests requestId).executed = false →
      (s.recoveryRequests requestId).encryptedApprovalCount < U32MOD →
      ∃ s2, submitAll s requestId votes = .ok s2 ∧
        (s2.recoveryRequests requestId).encryptedApprovalCount =
          ((s.recoveryRequests requestId).encryptedApprovalCount +
            countApprove votes) % U32MOD ∧
        s2.requestCounter = s.requestCounter ∧
        (s2.recoveryRequests requestId).executed = false := by
  intro votes
  induction votes with
  | nil =>
    intro s h0 hle hex hlt
    refine ⟨s, rfl, ?_, rfl, hex⟩
    simp only [countApprove, List.countP_nil, Nat.add_zero]
    exact (Nat.mod_eq_of_lt hlt).symm
  | cons v tl ih =>
    intro s h0 hle hex hlt
    have hval : 0 < requestId ∧ requestId ≤ s.requestCounter := ⟨h0, hle⟩
    by_cases hv : v.value = true
    · have hstep : submitEncryptedApproval s requestId v =
          .ok { s with recoveryRequests := fun r =>
              if r = requestId then
                { s.recoveryRequests requestId with
                    encryptedApprovalCount :=
                      fheAdd (s.recoveryRequests requestId).encryptedApprovalCount
                        (fheAsEuint32 1) }
              else s.recoveryRequests r } := by
        simp [submitEncryptedApproval, hval, hex, hv]
      have hbind : submitAll s requestId (v :: tl) =
          submitAll { s with recoveryRequests := fun r =>
              if r = requestId then
                { s.recoveryRequests requestId with
                    encryptedApprovalCount :=
                      fheAdd (s.recoveryRequests requestId).encryptedApprovalCount
                        (fheAsEuint32 1) }
              else s.recoveryRequests r } requestId tl := by
        unfold submitAll
        rw [List.foldlM_cons, hstep]
        rfl
      obtain ⟨s2, hrun, hcount, hctr, hex2⟩ := ih
        { s with recoveryRequests := fun r =>
            if r = requestId then
              { s.recoveryRequests requestId with
                  encryptedApprovalCount :=
                    fheAdd (s.recoveryRequests requestId).encryptedApprovalCount
                      (fheAsEuint32 1) }
            else s.recoveryRequests r }
        h0 hle (by simp [hex]) (by simp [fheAdd]; exact Nat.mod_lt _ (by decide))
      refine ⟨s2, by rw [hbind]; exact hrun, ?_, hctr, hex2⟩
      rw [hcount]
      simp only [ite_true, fheAdd, fheAsEuint32, countApprove, List.countP_cons, hv,
        if_pos rfl]
      rw [Nat.mod_add_mod]
      congr 1
      have h1 : (1 : Nat) % U32MOD = 1 := rfl
      rw [h1]
      omega
    · have hstep : submitEncryptedApproval s requestId v = .ok s := by
        simp [submitEncryptedApproval, hval, hex, hv]
      have hbind : submitAll s requestId (v :: tl) = submitAll s requestId tl := by
        unfold submitAll
        rw [List.foldlM_cons, hstep]
        rfl
      obtain ⟨s2, hrun, hcount, hctr, hex2⟩ := ih s h0 hle hex hlt
      refine ⟨s2, by rw [hbind]; exact hrun, ?_, hctr, hex2⟩
      rw [hcount]
      simp [countApprove, List.countP_cons, hv]

/-- Claim C1: on a live request an affirmative encrypted vote replaces the
counter by the homomorphic sum of its prior value and an encryption of
one, a rejecting vote leaves the state untouched, no other request is
affected; consequently a whole sequence of such calls, in any order,
succeeds and leaves the counter at exactly the number of affirmative
votes, starting from the encrypted zero of a fresh request (stated below
the 32-bit wrap bound of the homomorphic counter). -/
theorem submitApproval_counts_affirmative (s : ContractState) (requestId : Nat)
    (v : EBool) (votes : List EBool)
    (hpos : 0 < requestId) (hle : requestId ≤ s.requestCounter)
    (hexec : (s.recoveryRequests requestId).executed = false) :
    (∃ s1, submitEncryptedApproval s requestId v = .ok s1 ∧
       (s1.recoveryRequests requestId).encryptedApprovalCount =
         (if v.value then
            fheAdd (s.recoveryRequests requestId).encryptedApprovalCount
              (fheAsEuint32 1)
          else (s.recoveryRequests requestId).encryptedApprovalCount) ∧
       (∀ r, r ≠ requestId → s1.recoveryRequests r = s.recoveryRequests r) ∧
       (v.value = false → s1 = s)) ∧
    ((s.recoveryRequests requestId).encryptedApprovalCount = 0 →
     countApprove votes < U32MOD →
     ∃ s2, submitAll s requestId votes = .ok s2 ∧
       (s2.recoveryRequests requestId).encryptedApprovalCount =
         countApprove votes) := by
  have hval : 0 < requestId ∧ requestId ≤ s.requestCounter := ⟨hpos, hle⟩
  constructor
  · by_cases hv : v.value = true
    · refine ⟨{ s with recoveryRequests := fun r =>
          if r = requestId then
            { s.recoveryRequests requestId with
                encryptedApprovalCount :=
                  fheAdd (s.recoveryRequests requestId).encryptedApprovalCount
                    (fheAsEuint32 1) }
          else s.recoveryRequests r },
        by simp [submitEncryptedApproval, hval, hexec, hv], ?_, ?_, ?_⟩
      · simp [hv]
      · intro r hr; simp [hr]
      · intro hfalse; simp [hv] at hfalse
    · refine ⟨s, by simp [submitEncryptedApproval, hval, hexec, hv], ?_,
        fun _ _ => rfl, fun _ => rfl⟩
      simp [hv]
  · intro hzero hcnt
    obtain ⟨s2, hrun, hcount, -, -⟩ :=
      submitAll_count requestId votes s hpos hle hexec
        (by rw [hzero]; decide)
    refine ⟨s2, hrun, ?_⟩
    rw [hcount, hzero, Nat.zero_add, Nat.mod_eq_of_lt hcnt]

/-- Witness for C1: on the fresh request 1 the vote sequence
yes, no, yes leaves the counter at 2. -/
theorem submitApproval_counts_affirmative_witness :
    (demoCreated.recoveryRequests 1).encryptedApprovalCount = 0 ∧
    ∃ s2, submitAll demoCreated 1 [⟨true⟩, ⟨false⟩, ⟨true⟩] = .ok s2 ∧
      (s2.recoveryRequests 1).encryptedApprovalCount = 2 := by
  refine ⟨by decide, ?_⟩
  obtain ⟨s2, h1, h2⟩ := (submitApproval_counts_affirmative demoCreated 1
      ⟨true⟩ [⟨true⟩, ⟨false⟩, ⟨true⟩] (by decide) (by decide) (by decide)).2
      (by decide) (by decide)
  exact ⟨s2, h1, by rw [h2]; decide⟩

end PrivacyWalletRecoveryFHE
